import Mathlib

/-!
Verification of `upb/base/internal/log2.h` (protobuf upb runtime).

The header defines four pure helpers:
  * `upb_Log2Ceiling (int x)`: 0 for `x <= 1`; otherwise, on GNUC,
    `32 - __builtin_clz(x - 1)`, otherwise an iterative loop
    `int lg2 = 0; while ((1 << lg2) < x) lg2++; return lg2;`.
  * `upb_Log2CeilingSize (int x)`: `1 << upb_Log2Ceiling(x)`.
  * `upb_Log2CTypeSize`, `upb_Log2FieldTypeSize`: fixed-table lookups
    indexed by `enumerator - 1`.

C `int` is modelled as `Int` (the operations involved stay within 32-bit
signed range on the supported domains; where they would not, the model
returns `none`).
-/

namespace Upb

/-- Model of GCC `__builtin_clz` on a 32-bit unsigned value: the number of
leading zero bits, i.e. `32` minus the bit length of `n`.  `Nat.size n` is
the bit length.  The C builtin is undefined at 0; this model is only ever
applied to positive arguments. -/
def clz32 (n : Nat) : Nat := 32 - Nat.size n

/-- `upb_Log2Ceiling` as compiled on GNUC:
`if (x <= 1) return 0;  return 32 - __builtin_clz(x - 1);`. -/
def upb_Log2Ceiling (x : Int) : Int :=
  if x ≤ 1 then 0 else 32 - (clz32 (x - 1).toNat : Int)

/-- `upb_Log2CeilingSize`: `1 << upb_Log2Ceiling(x)`, modelled as
`2 ^ upb_Log2Ceiling x` (exact whenever the exponent is in `[0, 30]`,
where the C shift of a 32-bit signed `1` is defined and exact). -/
def upb_Log2CeilingSize (x : Int) : Int :=
  2 ^ (upb_Log2Ceiling x).toNat

/-- One C evaluation of `1 << lg2` at type `int`: defined only for
`lg2 ≤ 30`.  At `lg2 = 31` the value `2^31` is not representable in a
32-bit signed `int`, and at `lg2 ≥ 32` the shift count reaches the type
width; both are undefined behavior in C, modelled as `none`. -/
def shl1 (lg2 : Nat) : Option Int :=
  if lg2 ≤ 30 then some (2 ^ lg2) else none

/-- The non-GNUC fallback loop of `upb_Log2Ceiling`:
`int lg2 = 0; while ((1 << lg2) < x) lg2++; return lg2;`.
`none` records that the loop ran into undefined behavior (or exhausted the
fuel, which suffices for every defined run). -/
def log2Loop (x : Int) : Nat → Nat → Option Int
  | 0, _ => none
  | fuel + 1, lg2 =>
    match shl1 lg2 with
    | none => none
    | some p => if p < x then log2Loop x fuel (lg2 + 1) else some (lg2 : Int)

/-- `upb_Log2Ceiling`, the non-GNUC fallback branch, with the same leading
clamp `if (x <= 1) return 0;`. -/
def upb_Log2Ceiling_fallback (x : Int) : Option Int :=
  if x ≤ 1 then some 0 else log2Loop x 32 0

theorem log2Ceiling_eq_size (x : Int) (h2 : 2 ≤ x) (hub : x ≤ 2 ^ 31 - 1) :
    upb_Log2Ceiling x = (Nat.size (x - 1).toNat : Int) := by
  have hx : ¬ x ≤ 1 := by omega
  have hm : ((x - 1).toNat : Int) = x - 1 := Int.toNat_of_nonneg (by omega)
  have hmlt : (x - 1).toNat < 2 ^ 31 := by
    have : ((x - 1).toNat : Int) < (2 : Int) ^ 31 := by
      rw [hm]; norm_num at hub ⊢; omega
    exact_mod_cast this
  have hsize : Nat.size (x - 1).toNat ≤ 31 := Nat.size_le.mpr hmlt
  simp only [upb_Log2Ceiling, hx, if_false, clz32]
  omega

theorem log2Ceiling_nonneg (x : Int) : 0 ≤ upb_Log2Ceiling x := by
  unfold upb_Log2Ceiling
  split
  · exact le_refl 0
  · have : clz32 (x - 1).toNat ≤ 32 := by
      unfold clz32; omega
    omega

theorem log2Ceiling_toNat (x : Int) (h2 : 2 ≤ x) (hub : x ≤ 2 ^ 31 - 1) :
    (upb_Log2Ceiling x).toNat = Nat.size (x - 1).toNat := by
  rw [log2Ceiling_eq_size x h2 hub]
  exact Int.toNat_natCast _

theorem log2Ceiling_of_le_one (x : Int) (h : x ≤ 1) : upb_Log2Ceiling x = 0 := by
  simp [upb_Log2Ceiling, h]

theorem le_pow_log2Ceiling (x : Int) (h1 : 1 ≤ x) (h2 : x ≤ 2 ^ 30) :
    x ≤ 2 ^ (upb_Log2Ceiling x).toNat := by
  by_cases hx1 : x ≤ 1
  · rw [log2Ceiling_of_le_one x hx1]
    simpa using hx1
  · have hx2 : 2 ≤ x := by omega
    have hub : x ≤ 2 ^ 31 - 1 := by norm_num at h2 ⊢; omega
    rw [log2Ceiling_toNat x hx2 hub]
    have hm : ((x - 1).toNat : Int) = x - 1 := Int.toNat_of_nonneg (by omega)
    have h := Nat.lt_size_self (x - 1).toNat
    have h' : ((x - 1).toNat : Int) < ((2 ^ Nat.size (x - 1).toNat : Nat) : Int) := by
      exact_mod_cast h
    push_cast at h'
    omega

theorem pow_pred_lt_of_log2Ceiling (x : Int) (h2 : 2 ≤ x) (hub : x ≤ 2 ^ 31 - 1) :
    2 ^ ((upb_Log2Ceiling x).toNat - 1) < x := by
  rw [log2Ceiling_toNat x h2 hub]
  have hm : ((x - 1).toNat : Int) = x - 1 := Int.toNat_of_nonneg (by omega)
  have hmpos : 1 ≤ (x - 1).toNat := by omega
  have hL : 1 ≤ Nat.size (x - 1).toNat := by
    rcases Nat.eq_zero_or_pos (Nat.size (x - 1).toNat) with h0 | h0
    · exact absurd (Nat.size_eq_zero.mp h0) (by omega)
    · exact h0
  have h := Nat.lt_size.mp (show Nat.size (x - 1).toNat - 1 < Nat.size (x - 1).toNat by omega)
  have h' : ((2 ^ (Nat.size (x - 1).toNat - 1) : Nat) : Int) ≤ ((x - 1).toNat : Int) := by
    exact_mod_cast h
  push_cast at h'
  omega

theorem log2Ceiling_le_of_le_pow (x : Int) (h1 : 1 ≤ x) (hub : x ≤ 2 ^ 31 - 1)
    (n : Nat) (hn : x ≤ 2 ^ n) : (upb_Log2Ceiling x).toNat ≤ n := by
  by_cases hx1 : x ≤ 1
  · rw [log2Ceiling_of_le_one x hx1]
    omega
  · have hx2 : 2 ≤ x := by omega
    rw [log2Ceiling_toNat x hx2 hub]
    have hm : ((x - 1).toNat : Int) = x - 1 := Int.toNat_of_nonneg (by omega)
    have h' : ((x - 1).toNat : Int) < ((2 ^ n : Nat) : Int) := by
      push_cast
      omega
    exact Nat.size_le.mpr (by exact_mod_cast h')

/-- C1: for every integer x in [1, 2^30], `upb_Log2Ceiling x` is the smallest
integer n with 2^n ≥ x: `2 ^ upb_Log2Ceiling x ≥ x`, when x > 1 additionally
`2 ^ (upb_Log2Ceiling x - 1) < x`, and any n with 2^n ≥ x is at least
`upb_Log2Ceiling x`. -/
theorem log2Ceiling_is_ceiling (x : Int) (h1 : 1 ≤ x) (h2 : x ≤ 2 ^ 30) :
    x ≤ 2 ^ (upb_Log2Ceiling x).toNat ∧
    (1 < x → 2 ^ ((upb_Log2Ceiling x).toNat - 1) < x) ∧
    (∀ n : Nat, x ≤ 2 ^ n → (upb_Log2Ceiling x).toNat ≤ n) := by
  have hub : x ≤ 2 ^ 31 - 1 := by norm_num at h2 ⊢; omega
  refine ⟨le_pow_log2Ceiling x h1 h2, fun hgt => ?_, fun n hn => ?_⟩
  · exact pow_pred_lt_of_log2Ceiling x (by omega) hub
  · exact log2Ceiling_le_of_le_pow x h1 hub n hn

theorem log2Ceiling_is_ceiling_witness :
    (1 : Int) ≤ 5 ∧ (5 : Int) ≤ 2 ^ 30 ∧
    ((5 : Int) ≤ 2 ^ (upb_Log2Ceiling 5).toNat ∧
     ((1 : Int) < 5 → 2 ^ ((upb_Log2Ceiling 5).toNat - 1) < (5 : Int)) ∧
     (∀ n : Nat, (5 : Int) ≤ 2 ^ n → (upb_Log2Ceiling 5).toNat ≤ n)) :=
  ⟨by norm_num, by norm_num, log2Ceiling_is_ceiling 5 (by norm_num) (by norm_num)⟩

/-- C4: `upb_Log2Ceiling` returns 0 for every input x ≤ 1, in particular at
0, at 1, and at every negative x. -/
theorem log2Ceiling_clamp :
    upb_Log2Ceiling 0 = 0 ∧ upb_Log2Ceiling 1 = 0 ∧
    ∀ x : Int, x ≤ 1 → upb_Log2Ceiling x = 0 :=
  ⟨by simp [upb_Log2Ceiling], by simp [upb_Log2Ceiling],
   fun x hx => by simp [upb_Log2Ceiling, hx]⟩

theorem log2Ceiling_clamp_witness : upb_Log2Ceiling (-7) = 0 :=
  log2Ceiling_clamp.2.2 (-7) (by decide)

/-- C3: for every integer x in [0, 2^30], `upb_Log2CeilingSize x` equals
`2 ^ upb_Log2Ceiling x`, which is the smallest power of two ≥ x, and every
x ≤ 1 maps to 1. -/
theorem log2CeilingSize_spec (x : Int) (h0 : 0 ≤ x) (h2 : x ≤ 2 ^ 30) :
    upb_Log2CeilingSize x = 2 ^ (upb_Log2Ceiling x).toNat ∧
    x ≤ upb_Log2CeilingSize x ∧
    (∀ n : Nat, x ≤ 2 ^ n → upb_Log2CeilingSize x ≤ 2 ^ n) ∧
    (x ≤ 1 → upb_Log2CeilingSize x = 1) := by
  have hub : x ≤ 2 ^ 31 - 1 := by norm_num at h2 ⊢; omega
  refine ⟨rfl, ?_, fun n hn => ?_, fun hx1 => ?_⟩
  · by_cases hx1 : x ≤ 1
    · have h1 : (1 : Int) ≤ 2 ^ (upb_Log2Ceiling x).toNat := one_le_pow₀ (by norm_num)
      unfold upb_Log2CeilingSize
      omega
    · exact le_pow_log2Ceiling x (by omega) h2
  · by_cases hx1 : x ≤ 1
    · rw [show upb_Log2CeilingSize x = 1 by
        unfold upb_Log2CeilingSize; rw [log2Ceiling_of_le_one x hx1]; rfl]
      exact one_le_pow₀ (by norm_num)
    · have hle := log2Ceiling_le_of_le_pow x (by omega) hub n hn
      exact pow_le_pow_right₀ (by norm_num) hle
  · unfold upb_Log2CeilingSize
    rw [log2Ceiling_of_le_one x hx1]
    rfl

theorem log2CeilingSize_spec_witness :
    (0 : Int) ≤ 5 ∧ (5 : Int) ≤ 2 ^ 30 ∧
    (upb_Log2CeilingSize 5 = 2 ^ (upb_Log2Ceiling 5).toNat ∧
     (5 : Int) ≤ upb_Log2CeilingSize 5 ∧
     (∀ n : Nat, (5 : Int) ≤ 2 ^ n → upb_Log2CeilingSize 5 ≤ 2 ^ n) ∧
     ((5 : Int) ≤ 1 → upb_Log2CeilingSize 5 = 1)) :=
  ⟨by norm_num, by norm_num, log2CeilingSize_spec 5 (by norm_num) (by norm_num)⟩

/-- C9: `upb_Log2Ceiling` is monotone on [0, 2^30]. -/
theorem log2Ceiling_mono (x y : Int) (_h0 : 0 ≤ x) (hxy : x ≤ y) (hy : y ≤ 2 ^ 30) :
    upb_Log2Ceiling x ≤ upb_Log2Ceiling y := by
  by_cases hx1 : x ≤ 1
  · rw [log2Ceiling_of_le_one x hx1]
    exact log2Ceiling_nonneg y
  · have hx2 : 2 ≤ x := by omega
    have hy2 : 2 ≤ y := by omega
    have hxub : x ≤ 2 ^ 31 - 1 := by norm_num at hy ⊢; omega
    have hyub : y ≤ 2 ^ 31 - 1 := by norm_num at hy ⊢; omega
    rw [log2Ceiling_eq_size x hx2 hxub, log2Ceiling_eq_size y hy2 hyub]
    have hmn : (x - 1).toNat ≤ (y - 1).toNat := by omega
    exact_mod_cast Nat.size_le_size hmn

theorem log2Ceiling_mono_witness : upb_Log2Ceiling 5 ≤ upb_Log2Ceiling 9 :=
  log2Ceiling_mono 5 9 (by norm_num) (by norm_num) (by norm_num)

theorem size_two_pow_sub_one (n : Nat) (hn : 1 ≤ n) : Nat.size (2 ^ n - 1) = n := by
  obtain ⟨k, rfl⟩ : ∃ k, n = k + 1 := ⟨n - 1, by omega⟩
  have hp : 2 ^ (k + 1) = 2 * 2 ^ k := by rw [pow_succ, Nat.mul_comm]
  have h1 : 1 ≤ 2 ^ k := Nat.one_le_two_pow
  have hle : Nat.size (2 ^ (k + 1) - 1) ≤ k + 1 := Nat.size_le.mpr (by omega)
  have hlt : k < Nat.size (2 ^ (k + 1) - 1) := Nat.lt_size.mpr (by omega)
  omega

theorem log2Ceiling_two_pow (n : Nat) (hn : n ≤ 30) :
    upb_Log2Ceiling ((2 : Int) ^ n) = (n : Int) := by
  rcases Nat.eq_zero_or_pos n with h0 | h0
  · subst h0
    simpa using log2Ceiling_of_le_one 1 (by norm_num)
  · have hx2 : (2 : Int) ≤ 2 ^ n := by
      calc (2 : Int) = 2 ^ 1 := (pow_one 2).symm
      _ ≤ 2 ^ n := pow_le_pow_right₀ (by norm_num) h0
    have hub : (2 : Int) ^ n ≤ 2 ^ 31 - 1 := by
      have : (2 : Int) ^ n ≤ 2 ^ 30 := pow_le_pow_right₀ (by norm_num) hn
      norm_num at this ⊢
      omega
    rw [log2Ceiling_eq_size _ hx2 hub]
    have hcast : ((2 : Int) ^ n - 1).toNat = 2 ^ n - 1 := by
      have h1 : (1 : Nat) ≤ 2 ^ n := Nat.one_le_two_pow
      have : (((2 ^ n - 1 : Nat)) : Int) = (2 : Int) ^ n - 1 := by push_cast [h1]; ring
      omega
    rw [hcast, size_two_pow_sub_one n h0]

/-- C10: `upb_Log2CeilingSize` is idempotent on [0, 2^30], and equivalently
`upb_Log2Ceiling (2 ^ n) = n` for every n in [0, 30]. -/
theorem log2CeilingSize_idem :
    (∀ x : Int, 0 ≤ x → x ≤ 2 ^ 30 →
      upb_Log2CeilingSize (upb_Log2CeilingSize x) = upb_Log2CeilingSize x) ∧
    (∀ n : Nat, n ≤ 30 → upb_Log2Ceiling ((2 : Int) ^ n) = (n : Int)) := by
  have key : ∀ n : Nat, n ≤ 30 → upb_Log2Ceiling ((2 : Int) ^ n) = (n : Int) :=
    log2Ceiling_two_pow
  refine ⟨fun x _h0 h2 => ?_, key⟩
  have hub : x ≤ 2 ^ 31 - 1 := by norm_num at h2 ⊢; omega
  have hk : (upb_Log2Ceiling x).toNat ≤ 30 := by
    by_cases hx1 : x ≤ 1
    · rw [log2Ceiling_of_le_one x hx1]
      omega
    · exact log2Ceiling_le_of_le_pow x (by omega) hub 30 h2
  have hsize : upb_Log2CeilingSize x = (2 : Int) ^ (upb_Log2Ceiling x).toNat := rfl
  rw [hsize]
  have hsize2 : upb_Log2CeilingSize ((2 : Int) ^ (upb_Log2Ceiling x).toNat) =
      2 ^ (upb_Log2Ceiling ((2 : Int) ^ (upb_Log2Ceiling x).toNat)).toNat := rfl
  rw [hsize2, key _ hk, Int.toNat_natCast]

theorem log2Loop_run (x : Int) (L : Nat) (hL : L ≤ 30) (hup : x ≤ 2 ^ L)
    (hlow : ∀ j, j < L → (2 : Int) ^ j < x) :
    ∀ fuel lg2, lg2 ≤ L → L - lg2 < fuel → log2Loop x fuel lg2 = some (L : Int) := by
  intro fuel
  induction fuel with
  | zero => intro lg2 hle hfuel; omega
  | succ fuel ih =>
    intro lg2 hle hfuel
    have hs : shl1 lg2 = some (2 ^ lg2) := by unfold shl1; rw [if_pos (by omega)]
    by_cases hlt : (2 : Int) ^ lg2 < x
    · have hne : lg2 ≠ L := by
        intro h
        subst h
        exact absurd hup (not_le.mpr hlt)
      simp only [log2Loop, hs, if_pos hlt]
      exact ih (lg2 + 1) (by omega) (by omega)
    · have heq : lg2 = L := by
        by_contra hne
        exact hlt (hlow lg2 (by omega))
      subst heq
      simp only [log2Loop, hs, if_neg hlt]

/-- C2 (amended): for every x with 1 < x ≤ 2^30, the iterative fallback
terminates without undefined behavior and agrees with the GNUC fast path
`32 - clz(x - 1)`.  (As originally stated over all 32-bit signed x the claim
fails: for x > 2^30 the fallback evaluates `1 << 31`, which overflows a
32-bit signed int.) -/
theorem log2Ceiling_fallback_agrees (x : Int) (h1 : 1 < x) (h2 : x ≤ 2 ^ 30) :
    upb_Log2Ceiling_fallback x = some (upb_Log2Ceiling x) := by
  have hx2 : 2 ≤ x := by omega
  have hub : x ≤ 2 ^ 31 - 1 := by norm_num at h2 ⊢; omega
  have htn := log2Ceiling_toNat x hx2 hub
  have hL30 : (upb_Log2Ceiling x).toNat ≤ 30 :=
    log2Ceiling_le_of_le_pow x (by omega) hub 30 h2
  have hup : x ≤ 2 ^ (upb_Log2Ceiling x).toNat := le_pow_log2Ceiling x (by omega) h2
  have hlow : ∀ j, j < (upb_Log2Ceiling x).toNat → (2 : Int) ^ j < x := by
    intro j hj
    rw [htn] at hj
    have hm : ((x - 1).toNat : Int) = x - 1 := Int.toNat_of_nonneg (by omega)
    have h := Nat.lt_size.mp hj
    have h' : ((2 ^ j : Nat) : Int) ≤ ((x - 1).toNat : Int) := by exact_mod_cast h
    push_cast at h'
    omega
  have hcast : ((upb_Log2Ceiling x).toNat : Int) = upb_Log2Ceiling x :=
    Int.toNat_of_nonneg (log2Ceiling_nonneg x)
  unfold upb_Log2Ceiling_fallback
  rw [if_neg (by omega)]
  rw [← hcast]
  exact log2Loop_run x (upb_Log2Ceiling x).toNat hL30 hup hlow 32 0 (by omega) (by omega)

theorem log2Ceiling_fallback_agrees_witness :
    (1 : Int) < 5 ∧ (5 : Int) ≤ 2 ^ 30 ∧
    upb_Log2Ceiling_fallback 5 = some (upb_Log2Ceiling 5) :=
  ⟨by norm_num, by norm_num, log2Ceiling_fallback_agrees 5 (by norm_num) (by norm_num)⟩

/-- C2 (counterexample): at x = 2^30 + 1, a 32-bit-signed value with x > 1,
the iterative fallback runs into the undefined evaluation `1 << 31`
(modelled `none`) while the fast path returns 31, so the two do not return
the same result over the whole 32-bit signed range. -/
theorem log2Ceiling_fallback_counterexample :
    upb_Log2Ceiling_fallback (2 ^ 30 + 1) = none ∧
    upb_Log2Ceiling (2 ^ 30 + 1) = 31 ∧
    upb_Log2Ceiling_fallback (2 ^ 30 + 1) ≠ some (upb_Log2Ceiling (2 ^ 30 + 1)) := by
  have hfast : upb_Log2Ceiling (2 ^ 30 + 1) = 31 := by
    rw [log2Ceiling_eq_size (2 ^ 30 + 1) (by norm_num) (by norm_num)]
    have hcast : ((2 : Int) ^ 30 + 1 - 1).toNat = 2 ^ 30 := by decide
    rw [hcast, Nat.size_pow]
    norm_num
  have hfall : upb_Log2Ceiling_fallback (2 ^ 30 + 1) = none := by decide
  exact ⟨hfall, hfast, by rw [hfall]; exact fun h => Option.noConfusion h⟩

theorem log2CeilingSize_idem_witness :
    upb_Log2CeilingSize (upb_Log2CeilingSize 5) = upb_Log2CeilingSize 5 ∧
    upb_Log2Ceiling ((2 : Int) ^ 10) = (10 : Int) :=
  ⟨log2CeilingSize_idem.1 5 (by norm_num) (by norm_num),
   log2CeilingSize_idem.2 10 (by norm_num)⟩

/-- Modelled from the spec: the `upb_CType` enumeration (its definition lives
in `upb/base/descriptor_constants.h`, which is outside this fragment) —
runtime value categories, 11 members with 1-based ordinals in this order. -/
inductive upb_CType
  | Bool
  | Float
  | Int32
  | UInt32
  | Enum
  | Message
  | Double
  | Int64
  | UInt64
  | String
  | Bytes
  deriving DecidableEq, Fintype

/-- Modelled from the spec: the 1-based ordinal of a `upb_CType` member. -/
def upb_CType.ordinal : upb_CType → Nat
  | .Bool => 1
  | .Float => 2
  | .Int32 => 3
  | .UInt32 => 4
  | .Enum => 5
  | .Message => 6
  | .Double => 7
  | .Int64 => 8
  | .UInt64 => 9
  | .String => 10
  | .Bytes => 11

/-- Modelled from the spec: the `upb_FieldType` enumeration (declared wire
field types, defined outside this fragment), 18 members with 1-based
ordinals in this order. -/
inductive upb_FieldType
  | Double
  | Float
  | Int64
  | UInt64
  | Int32
  | Fixed64
  | Fixed32
  | Bool
  | String
  | Group
  | Message
  | Bytes
  | UInt32
  | Enum
  | SFixed32
  | SFixed64
  | SInt32
  | SInt64
  deriving DecidableEq, Fintype

/-- Modelled from the spec: the 1-based ordinal of a `upb_FieldType` member. -/
def upb_FieldType.ordinal : upb_FieldType → Nat
  | .Double => 1
  | .Float => 2
  | .Int64 => 3
  | .UInt64 => 4
  | .Int32 => 5
  | .Fixed64 => 6
  | .Fixed32 => 7
  | .Bool => 8
  | .String => 9
  | .Group => 10
  | .Message => 11
  | .Bytes => 12
  | .UInt32 => 13
  | .Enum => 14
  | .SFixed32 => 15
  | .SFixed64 => 16
  | .SInt32 => 17
  | .SInt64 => 18

/-- Modelled from the spec: `UPB_SIZE(size32, size64)` (from
`upb/port/def.inc`, outside this fragment) selects `size32` on a
4-byte-pointer target and `size64` on an 8-byte-pointer target; `wide` is
true on the 8-byte target. -/
def UPB_SIZE (wide : Bool) (size32 size64 : Nat) : Nat :=
  if wide then size64 else size32

/-- The `static const size_t size[]` table of `upb_Log2CTypeSize`,
transcribed entry for entry from the source. -/
def upb_CTypeSizeTable (wide : Bool) : List Nat :=
  [0,                   -- kUpb_CType_Bool
   2,                   -- kUpb_CType_Float
   2,                   -- kUpb_CType_Int32
   2,                   -- kUpb_CType_UInt32
   2,                   -- kUpb_CType_Enum
   UPB_SIZE wide 2 3,   -- kUpb_CType_Message
   3,                   -- kUpb_CType_Double
   3,                   -- kUpb_CType_Int64
   3,                   -- kUpb_CType_UInt64
   UPB_SIZE wide 3 4,   -- kUpb_CType_String
   UPB_SIZE wide 3 4]   -- kUpb_CType_Bytes

/-- `upb_Log2CTypeSize`: `return size[c_type - 1];`. -/
def upb_Log2CTypeSize (wide : Bool) (c_type : upb_CType) : Nat :=
  (upb_CTypeSizeTable wide).getD (c_type.ordinal - 1) 0

/-- The `static const size_t size[]` table of `upb_Log2FieldTypeSize`,
transcribed entry for entry from the source. -/
def upb_FieldTypeSizeTable (wide : Bool) : List Nat :=
  [3,                   -- kUpb_FieldType_Double
   2,                   -- kUpb_FieldType_Float
   3,                   -- kUpb_FieldType_Int64
   3,                   -- kUpb_FieldType_UInt64
   2,                   -- kUpb_FieldType_Int32
   3,                   -- kUpb_FieldType_Fixed64
   2,                   -- kUpb_FieldType_Fixed32
   0,                   -- kUpb_FieldType_Bool
   UPB_SIZE wide 3 4,   -- kUpb_FieldType_String
   UPB_SIZE wide 2 3,   -- kUpb_FieldType_Group
   UPB_SIZE wide 2 3,   -- kUpb_FieldType_Message
   UPB_SIZE wide 3 4,   -- kUpb_FieldType_Bytes
   2,                   -- kUpb_FieldType_UInt32
   2,                   -- kUpb_FieldType_Enum
   2,                   -- kUpb_FieldType_SFixed32
   3,                   -- kUpb_FieldType_SFixed64
   2,                   -- kUpb_FieldType_SInt32
   3]                   -- kUpb_FieldType_SInt64

/-- `upb_Log2FieldTypeSize`: `return size[field_type - 1];`. -/
def upb_Log2FieldTypeSize (wide : Bool) (field_type : upb_FieldType) : Nat :=
  (upb_FieldTypeSizeTable wide).getD (field_type.ordinal - 1) 0

/-- C5: with a 4-byte reference width (`wide = false`),
`upb_Log2CTypeSize Message = 2` and `upb_Log2CTypeSize String = 3`; with an
8-byte reference width (`wide = true`) they are 3 and 4. -/
theorem log2CTypeSize_reference_width :
    upb_Log2CTypeSize false upb_CType.Message = 2 ∧
    upb_Log2CTypeSize false upb_CType.String = 3 ∧
    upb_Log2CTypeSize true upb_CType.Message = 3 ∧
    upb_Log2CTypeSize true upb_CType.String = 4 := by
  decide

/-- C6: on both build targets, `upb_Log2FieldTypeSize` maps Double to 3,
Float to 2, Bool to 0, Fixed32 to 2 and Fixed64 to 3, and every ordinal
lands inside the fixed table. -/
theorem log2FieldTypeSize_values :
    ∀ wide : Bool,
      upb_Log2FieldTypeSize wide upb_FieldType.Double = 3 ∧
      upb_Log2FieldTypeSize wide upb_FieldType.Float = 2 ∧
      upb_Log2FieldTypeSize wide upb_FieldType.Bool = 0 ∧
      upb_Log2FieldTypeSize wide upb_FieldType.Fixed32 = 2 ∧
      upb_Log2FieldTypeSize wide upb_FieldType.Fixed64 = 3 ∧
      ∀ t : upb_FieldType, t.ordinal - 1 < (upb_FieldTypeSizeTable wide).length := by
  decide

/-- C7: on both build targets, `upb_Log2CTypeSize` maps Bool to 0, Double
to 3 and Float to 2, and every ordinal lands inside the fixed table. -/
theorem log2CTypeSize_values :
    ∀ wide : Bool,
      upb_Log2CTypeSize wide upb_CType.Bool = 0 ∧
      upb_Log2CTypeSize wide upb_CType.Double = 3 ∧
      upb_Log2CTypeSize wide upb_CType.Float = 2 ∧
      ∀ t : upb_CType, t.ordinal - 1 < (upb_CTypeSizeTable wide).length := by
  decide

/-- C8: the CType table has exactly 11 entries and the FieldType table has
exactly 18, matching the cardinalities of their enumerations; the 1-based
ordinals fill 1..11 resp. 1..18 with no duplicates (injective) and no gaps
(surjective onto the table indices). -/
theorem sizeTable_invariants :
    (∀ wide : Bool, (upb_CTypeSizeTable wide).length = 11) ∧
    (∀ wide : Bool, (upb_FieldTypeSizeTable wide).length = 18) ∧
    Fintype.card upb_CType = 11 ∧
    Fintype.card upb_FieldType = 18 ∧
    Function.Injective upb_CType.ordinal ∧
    Function.Injective upb_FieldType.ordinal ∧
    (∀ t : upb_CType, 1 ≤ t.ordinal ∧ t.ordinal ≤ 11) ∧
    (∀ t : upb_FieldType, 1 ≤ t.ordinal ∧ t.ordinal ≤ 18) ∧
    (∀ i : Fin 11, ∃ t : upb_CType, t.ordinal = i.val + 1) ∧
    (∀ i : Fin 18, ∃ t : upb_FieldType, t.ordinal = i.val + 1) := by
  decide

end Upb
